import Mathlib

/-!
Shallow embedding of the airwaves scheduler (src/schedule.py, src/rank.py):
the indentation-based schedule parser, the rank-to-color mapper, the HTML
renderer, and the YAML-backed ranking store (the YAML library is abstracted
as an association-list document).  Python dicts are modelled as
insertion-ordered association lists, Python exceptions as `Option`/`none`
results, printed warnings as accumulated lists.
-/

set_option synthInstance.maxSize 1024

namespace Airwaves

/-- A YAML-like scalar value as produced by yaml.safe_load and consumed by
get_color_for_rank.  Python bools are instances of int, so they count as
numbers for isinstance(rank, (int, float)).  Floats are modelled as rationals
(checked against CPython: at every half-integer rank in [1,10] the float
computation of get_color_for_rank agrees with exact rational arithmetic). -/
inductive PyVal where
  | pyNone : PyVal
  | pyBool (b : Bool) : PyVal
  | pyInt (n : Int) : PyVal
  | pyFloat (q : ℚ) : PyVal
  | pyStr (s : String) : PyVal
deriving DecidableEq, Repr

/-- Numeric view: mirrors `rank is None or not isinstance(rank, (int, float))`
in get_color_for_rank; `some` exactly for bool/int/float. -/
def pyNumeric : PyVal → Option ℚ
  | .pyBool b => some (if b then 1 else 0)
  | .pyInt n => some (n : ℚ)
  | .pyFloat q => some q
  | _ => none

/-- Python dict lookup `d.get(k)` on an insertion-ordered association list. -/
def dictGet? {α : Type} : List (String × α) → String → Option α
  | [], _ => none
  | (k, v) :: rest, key => if k = key then some v else dictGet? rest key

/-- Python dict assignment `d[k] = v`: replaces in place at an existing key
(keeping its position), else appends at the end. -/
def dictSet {α : Type} : List (String × α) → String → α → List (String × α)
  | [], key, v => [(key, v)]
  | (k, w) :: rest, key, v =>
      if k = key then (key, v) :: rest else (k, w) :: dictSet rest key v

/-- Python `d[k].append(x)` for a dict of lists: appends at an existing key,
leaves the dict unchanged when the key is absent (callers guard presence). -/
def dictAppendVal {α : Type} : List (String × List α) → String → α → List (String × List α)
  | [], _, _ => []
  | (k, v) :: rest, key, x =>
      if k = key then (k, v ++ [x]) :: rest else (k, v) :: dictAppendVal rest key x

/-- One scheduled event, `{'artist': ..., 'venue': ...}` in schedule.py. -/
structure Event where
  artist : String
  venue : String
deriving DecidableEq, Repr

/-- A day's mapping from time-slot label to its event list. -/
abbrev TimeDict := List (String × List Event)

/-- The top-level schedule: day label → time dict, in encounter order. -/
abbrev Sched := List (String × TimeDict)

/-- Python str.strip() on a character list: drops whitespace at both ends. -/
def pyStripList (cs : List Char) : List Char :=
  ((cs.dropWhile Char.isWhitespace).reverse.dropWhile Char.isWhitespace).reverse

/-- Python str.strip(): drops whitespace at both ends of a string. -/
def pyStrip (s : String) : String := ⟨pyStripList s.data⟩

/-- Matcher for the anchored regex `^(.*)\s\(([^)]+)\)$` of
parse_schedule_file, scanning right-to-left from the final close paren:
greedy `.*` selects the latest open paren that is preceded by a whitespace
character and followed by a nonempty parenthesis-free venue.  First argument
is the reversed remaining input, second accumulates the venue (forward). -/
def eventScan : List Char → List Char → Option (String × String)
  | [], _ => none
  | c :: rest, acc =>
    if c = ')' then none
    else if c = '(' then
      match rest with
      | w :: artistRev =>
          if w.isWhitespace ∧ acc ≠ [] then
            some (⟨artistRev.reverse⟩, ⟨acc⟩)
          else
            eventScan rest ('(' :: acc)
      | [] => eventScan rest ('(' :: acc)
    else eventScan rest (c :: acc)

/-- `event_regex.match(stripped_line)` with its two groups (artist unstripped,
venue) on success. -/
def eventMatch (s : String) : Option (String × String) :=
  match s.data.reverse with
  | ')' :: rest => eventScan rest []
  | _ => none

/-- `len(line) - len(line.lstrip(' '))`: the number of leading spaces. -/
def countLeadingSpaces (line : String) : Nat :=
  (line.data.takeWhile (fun c => c = ' ')).length

/-- The mutable state threaded through the parse loop of parse_schedule_file:
the schedule dict built so far, the `current_day` and `current_time`
variables (None at start), and the warnings printed so far, each recorded as
(1-based line number, stripped line). -/
structure PState where
  schedule : Sched
  current_day : Option String
  current_time : Option String
  warnings : List (Nat × String)
deriving DecidableEq, Repr

/-- Processing of one line of the schedule file (body of the `for` loop of
parse_schedule_file, 0-based index `i`).  `none` models an exception escaping
the loop body — concretely the KeyError from
`schedule[current_day][current_time]` when the label under `current_time` is
not a key of the current day's dict — which the surrounding
`except Exception` turns into the error return. -/
def step (st : PState) (i : Nat) (line : String) : Option PState :=
  let stripped := pyStrip line
  if stripped = "" then
    some st
  else
    let indentation := countLeadingSpaces line
    if indentation = 0 then
      some { st with current_day := some stripped
                   , schedule := dictSet st.schedule stripped [] }
    else if indentation = 2 then
      match st.current_day with
      | some day =>
        match dictGet? st.schedule day with
        | some td =>
            some { st with current_time := some stripped
                         , schedule := dictSet st.schedule day (dictSet td stripped []) }
        | none => none
      | none => some { st with current_time := some stripped }
    else if 4 ≤ indentation then
      match st.current_day, st.current_time with
      | some day, some t =>
        match eventMatch stripped with
        | some (artist, venue) =>
          match dictGet? st.schedule day with
          | some td =>
            match dictGet? td t with
            | some evs =>
                some { st with schedule := dictSet st.schedule day
                                 (dictSet td t (evs ++ [⟨pyStrip artist, venue⟩])) }
            | none => none
          | none => none
        | none => some { st with warnings := st.warnings ++ [(i + 1, stripped)] }
      | _, _ => some st
    else
      some st

/-- The parse loop from a given state and 0-based line index; returns the
schedule (`none` on an exception, matching the `return None` of the handlers)
together with the warnings printed. -/
def parseLines : PState → Nat → List String → Option Sched × List (Nat × String)
  | st, _, [] => (some st.schedule, st.warnings)
  | st, i, l :: rest =>
    match step st i l with
    | some st2 => parseLines st2 (i + 1) rest
    | none => (none, st.warnings)

/-- Initial parser state: empty schedule, no current day or time. -/
def initState : PState := ⟨[], none, none, []⟩

/-- parse_schedule_file on the file's lines (file reading abstracted away:
the content is given as the list of its lines, newline-free). -/
def parse_schedule_file (lines : List String) : Option Sched × List (Nat × String) :=
  parseLines initState 0 lines

/-- Python int() truncation toward zero, as applied by `int(red)` etc. -/
def pyTrunc (q : ℚ) : Int := if 0 ≤ q then ⌊q⌋ else -⌊-q⌋

/-- The channel computation of get_color_for_rank (lines 70-79): red→blue for
rank ≤ 5.5, blue→green above, channels truncated to integers; returned as
(red, green, blue). -/
def rankChannels (rank : ℚ) : Int × Int × Int :=
  if rank ≤ (5.5 : ℚ) then
    let percent := (rank - 1) / (4.5 : ℚ)
    (pyTrunc (255 * (1 - percent)), 0, pyTrunc (255 * percent))
  else
    let percent := (rank - (5.5 : ℚ)) / (4.5 : ℚ)
    (0, pyTrunc (255 * percent), pyTrunc (255 * (1 - percent)))

/-- Lowercase hexadecimal digits of a natural number, as in Python format x. -/
def natToHex (n : Nat) : String := ⟨Nat.toDigits 16 n⟩

/-- Python format specifier 02x on an int: lowercase hex, sign first,
zero-padded to a total width of 2. -/
def hex2 (n : Int) : String :=
  let sign := if n < 0 then "-" else ""
  let body := natToHex n.natAbs
  let pad :=
    if sign.length + body.length < 2 then
      String.mk (List.replicate (2 - sign.length - body.length) '0')
    else ""
  sign ++ pad ++ body

/-- Lowercase hexadecimal digit characters, as Python format x emits. -/
def isLowerHexDigit (c : Char) : Bool := c.isDigit || ('a' ≤ c && c ≤ 'f')

/-- get_color_for_rank: None/non-number inputs yield (None, None); numbers
yield the interpolated background hex string and a luminance-contrasted text
color. -/
def get_color_for_rank (rank : PyVal) : Option String × Option String :=
  match pyNumeric rank with
  | none => (none, none)
  | some q =>
    match rankChannels q with
    | (red, green, blue) =>
      let luminance : ℚ :=
        ((0.299 : ℚ) * red + (0.587 : ℚ) * green + (0.114 : ℚ) * blue) / 255
      let text_color := if luminance < (0.5 : ℚ) then "#ffffff" else "#000000"
      let background_color := "#" ++ hex2 red ++ hex2 green ++ hex2 blue
      (some background_color, some text_color)

/-- Lexicographic three-way comparison of character lists by code point:
the comparison Python uses on str. -/
def strCmp : List Char → List Char → Ordering
  | [], [] => .eq
  | [], _ :: _ => .lt
  | _ :: _, [] => .gt
  | a :: as, b :: bs =>
    if a.toNat < b.toNat then .lt
    else if b.toNat < a.toNat then .gt
    else strCmp as bs

/-- Whether `needle` occurs contiguously inside `hay` (Python `in` on str). -/
def containsSub (hay needle : List Char) : Bool :=
  match hay with
  | [] => needle.isEmpty
  | c :: t => needle.isPrefixOf (c :: t) || containsSub t needle

/-- Python string `<=`: lexicographic by code point. -/
def pyStrLe (a b : String) : Prop := strCmp a.data b.data ≠ Ordering.gt

instance : DecidableRel pyStrLe :=
  fun a b => inferInstanceAs (Decidable (strCmp a.data b.data ≠ Ordering.gt))

/-- All venue labels occurring in a schedule, in traversal order (the
elements of the set comprehension of generate_html_table line 88). -/
def venuesOf (schedule : Sched) : List String :=
  schedule.flatMap (fun d => d.2.flatMap (fun ts => ts.2.map Event.venue))

/-- `sorted(list({...}))`: the distinct venue labels of the whole schedule in
lexicographic order — the global column list shared by every day's table. -/
def all_venues (schedule : Sched) : List String :=
  List.insertionSort pyStrLe (venuesOf schedule).dedup

/-- Digit-string value of Python int() on a nonempty all-digit char list. -/
def pyNat? (cs : List Char) : Option Nat :=
  if cs.isEmpty then none
  else if cs.all Char.isDigit then
    some (cs.foldl (fun acc c => acc * 10 + (c.toNat - 48)) 0)
  else none

/-- Python int() on a stripped char list: optional sign then digits, `none`
where int() would raise ValueError. -/
def pyInt? : List Char → Option Int
  | '-' :: rest => (pyNat? rest).map (fun n => -(n : Int))
  | '+' :: rest => (pyNat? rest).map (fun n => (n : Int))
  | cs => (pyNat? cs).map (fun n => (n : Int))

/-- Python `int(t.split(':')[0])`: the leading integer of a time-slot label
(text before the first colon), `none` when int() would raise ValueError. -/
def hourOf? (t : String) : Option Int :=
  pyInt? (pyStripList (t.data.takeWhile (fun c => c ≠ ':')))

/-- The `time_sort_key` lambda of generate_html_table: hours 0-4 are shifted
to 24-28 so after-midnight slots sort after the evening.  A label whose hour
does not parse would raise in Python; the renderer is only specified (and
only exercised) on labels with a leading integer hour, where this default is
never taken. -/
def time_sort_key (t : String) : Int :=
  match hourOf? t with
  | some h => if h < 5 then h + 24 else h
  | none => 0

/-- The comparison underlying `sorted(..., key=time_sort_key)`. -/
def timeLe (a b : String) : Prop := time_sort_key a ≤ time_sort_key b

instance : DecidableRel timeLe := fun _ _ => Int.decLe _ _

instance : IsTotal String timeLe := ⟨fun _ _ => Int.le_total _ _⟩

instance : IsTrans String timeLe := ⟨fun _ _ _ h h2 => le_trans h h2⟩

/-- `sorted(day_events.keys(), key=time_sort_key)`: Python's sorted is a
stable ascending sort, modelled by insertion sort on the key order. -/
def sorted_times (day_events : TimeDict) : List String :=
  List.insertionSort timeLe (day_events.map Prod.fst)

/-- One step of the venue_to_events accumulation (lines 135-137): append the
artist under its venue when that venue is a key, ignore the event otherwise. -/
def vteStep (d : List (String × List String)) (e : Event) : List (String × List String) :=
  if (dictGet? d e.venue).isSome then dictAppendVal d e.venue e.artist else d

/-- `venue_to_events`: a dict with one (initially empty) artist list per
venue column, filled from the events of one time slot in order. -/
def venue_to_events (allV : List String) (events : List Event) : List (String × List String) :=
  events.foldl vteStep (allV.map (fun v => (v, [])))

/-- The artists of the given events playing at the given venue, in order:
the value venue_to_events assigns to a venue column. -/
def artistsAt (events : List Event) (venue : String) : List String :=
  (events.filter (fun e => e.venue = venue)).map Event.artist

/-- The style attribute value of lines 154-159: empty unless a background
color exists, text color appended after it when present. -/
def styleFor : Option String × Option String → String
  | (some bg, tc) =>
      "background-color: " ++ bg ++ ";"
        ++ (match tc with | some t => " color: " ++ t ++ ";" | none => "")
  | (none, _) => ""

/-- The inline `<li><span ...>` element emitted for one artist (lines
149-163); the style attribute is always present, its value from styleFor. -/
def spanFor (rankings : List (String × PyVal)) (artist : String) : String :=
  let rank := (dictGet? rankings artist).getD PyVal.pyNone
  let style := styleFor (get_color_for_rank rank)
  "<li><span class=\"artist-cell\" style=\"" ++ style ++ "\">" ++ artist ++ "</span></li>"

/-- One `<td>` cell of a row (lines 141-168): a list of artist spans when the
venue has artists in this slot, an empty cell otherwise. -/
def cellFor (rankings : List (String × PyVal)) (vte : List (String × List String))
    (venue : String) : String :=
  let artists := (dictGet? vte venue).getD []
  if artists.isEmpty then "<td></td>"
  else "<td><ul>" ++ String.join (artists.map (spanFor rankings)) ++ "</ul></td>"

/-- The cells of one table row, one per global venue column, in order. -/
def rowCells (rankings : List (String × PyVal)) (allV : List String)
    (events : List Event) : List String :=
  allV.map (cellFor rankings (venue_to_events allV events))

/-- One `<tr>` row of a day's table: the time cell then one cell per venue. -/
def rowFor (rankings : List (String × PyVal)) (allV : List String)
    (time : String) (events : List Event) : String :=
  "<tr><td class=\"time-cell\">" ++ time ++ "</td>"
    ++ String.join (rowCells rankings allV events) ++ "</tr>"

/-- The heading and table emitted for one day (lines 118-172): `<h2>` label,
header row with the shared venue columns, then one row per time slot in
time_sort_key order. -/
def dayHtml (rankings : List (String × PyVal)) (allV : List String)
    (day : String) (day_events : TimeDict) : String :=
  "<h2>" ++ day ++ "</h2>"
    ++ "<table><thead><tr><th>Time</th>"
    ++ String.join (allV.map (fun v => "<th>" ++ v ++ "</th>"))
    ++ "</tr></thead><tbody>"
    ++ String.join ((sorted_times day_events).map
        (fun t => rowFor rankings allV t ((dictGet? day_events t).getD [])))
    ++ "</tbody></table>"

/-- The fixed document head of generate_html_table (doctype, meta, title and
inline stylesheet), verbatim up to the `<h1>` heading. -/
def htmlHeader : String :=
  "<!DOCTYPE html>\n<html lang=\"en\">\n<head>\n    <meta charset=\"UTF-8\">\n"
  ++ "    <meta name=\"viewport\" content=\"width=device-width, initial-scale=1.0\">\n"
  ++ "    <title>Iceland Airwaves Ranked Schedule</title>\n    <style>\n"
  ++ "        body \x7b font-family: -apple-system, BlinkMacSystemFont, \"Segoe UI\", Roboto, Helvetica, Arial, sans-serif; line-height: 1.5; background-color: #fdfdfd; color: #333; margin: 0; padding: 20px; \x7d\n"
  ++ "        h1 \x7b margin-top: 0; \x7d\n"
  ++ "        h2 \x7b border-bottom: 2px solid #eee; padding-bottom: 10px; margin-top: 40px; \x7d\n"
  ++ "        table \x7b border-collapse: collapse; width: 100%; font-size: 14px; margin-bottom: 30px; \x7d\n"
  ++ "        th, td \x7b border: 1px solid #ddd; padding: 8px; text-align: left; vertical-align: top; \x7d\n"
  ++ "        thead th \x7b background-color: #f2f2f2; position: sticky; top: 0; z-index: 1; \x7d\n"
  ++ "        tbody tr:nth-child(even) \x7b background-color: #f9f9f9; \x7d\n"
  ++ "        td.time-cell \x7b font-weight: bold; width: 60px; \x7d\n"
  ++ "        .artist-cell \x7b font-weight: bold; display: block; padding: 4px; margin-bottom: 2px; border-radius: 3px; \x7d\n"
  ++ "        ul \x7b margin: 0; padding: 0; list-style-type: none; \x7d\n"
  ++ "    </style>\n</head>\n<body>\n    <h1>Iceland Airwaves Ranked Schedule</h1>\n"

/-- generate_html_table: the document head, then each day's heading and table
in encounter order — every day built over the one global venue column list —
then the closing tags. -/
def generate_html_table (schedule : Sched) (rankings : List (String × PyVal)) : String :=
  htmlHeader
    ++ String.join (schedule.map (fun d => dayHtml rankings (all_venues schedule) d.1 d.2))
    ++ "</body></html>"

/-- Observable state of the rankings.yaml store, abstracting the filesystem
and the YAML library: the file is absent, present but raising in
yaml.safe_load (malformed document, or any read error), present and loading
as None (empty document), or present and loading as a mapping, which is
modelled as its insertion-ordered association list. -/
inductive StoreContent where
  | missing : StoreContent
  | malformed : StoreContent
  | emptyDoc : StoreContent
  | mapping (m : List (String × PyVal)) : StoreContent

/-- load_rankings of rank.py (lines 51-64): missing file or None document
give an empty dict, any exception is caught, warned about (Bool flag = a
warning was printed) and also gives an empty dict. -/
def load_rankings : StoreContent → List (String × PyVal) × Bool
  | .missing => ([], false)
  | .malformed => ([], true)
  | .emptyDoc => ([], false)
  | .mapping m => (m, false)

/-- The ranking-store loading inlined in schedule.py main (lines 183-190):
a missing file leaves rankings empty, `yaml.safe_load(f) or {}` turns a None
document into an empty dict, but an exception from yaml.safe_load is not
caught there, so a malformed store crashes main (`none`). -/
def mainLoadRankings : StoreContent → Option (List (String × PyVal))
  | .missing => some []
  | .malformed => none
  | .emptyDoc => some []
  | .mapping m => some m

/-- schedule.py main: parse the schedule (abort on its error outcome), load
the rankings, generate the HTML document; `none` means the run produced no
HTML output. -/
def mainRun (lines : List String) (store : StoreContent) : Option String :=
  match (parse_schedule_file lines).1 with
  | none => none
  | some sched =>
    match mainLoadRankings store with
    | none => none
    | some rankings => some (generate_html_table sched rankings)

/-- save_rankings of rank.py (lines 66-74): yaml.dump with sort_keys=True
writes the mapping as a document whose entries are sorted by artist name;
the written document is modelled as that sorted association list. -/
def save_rankings (m : List (String × PyVal)) : List (String × PyVal) :=
  List.insertionSort (fun a b => pyStrLe a.1 b.1) m

/-- What the interactive session decides for one artist: an accepted integer
rank, or the skip marker (user typed s, or the artist had no video ID). -/
inductive Outcome where
  | skipped : Outcome
  | ranked (n : Int) : Outcome

/-- The ranking loop of rank.py main (lines 106-152) over the (shuffled)
artists still to rank, each with the session's outcome for it: a ranked
artist is written into the dict and the whole store is saved immediately; a
skipped artist changes nothing and is never written.  Returns the final dict
and every document saved along the way. -/
def sessionRun : List (String × PyVal) → List (String × Outcome) →
    List (String × PyVal) × List (List (String × PyVal))
  | rankings, [] => (rankings, [])
  | rankings, (_, .skipped) :: rest => sessionRun rankings rest
  | rankings, (name, .ranked n) :: rest =>
    let rankings2 := dictSet rankings name (.pyInt n)
    let (final, saves) := sessionRun rankings2 rest
    (final, save_rankings rankings2 :: saves)

/-- The skip marker is the string value skipped; it is compared against but
never stored by the session loop. -/
def isSkipMarker : PyVal → Bool
  | .pyStr s => s = "skipped"
  | _ => false

/-! ### Order facts for the lexicographic comparison -/

theorem strCmp_swap (x y : List Char) : strCmp y x = (strCmp x y).swap := by
  induction x generalizing y with
  | nil => cases y <;> simp [strCmp, Ordering.swap]
  | cons a as ih =>
    cases y with
    | nil => simp [strCmp, Ordering.swap]
    | cons b bs =>
      simp only [strCmp]
      by_cases h1 : a.toNat < b.toNat
      · have h2 : ¬ b.toNat < a.toNat := Nat.lt_asymm h1
        simp [h1, h2, Ordering.swap]
      · by_cases h2 : b.toNat < a.toNat
        · simp [h1, h2, Ordering.swap]
        · simp [h1, h2, ih]

theorem strCmp_le_trans (x y z : List Char) (h1 : strCmp x y ≠ .gt)
    (h2 : strCmp y z ≠ .gt) : strCmp x z ≠ .gt := by
  induction x generalizing y z with
  | nil => cases z <;> simp [strCmp]
  | cons a as ih =>
    cases y with
    | nil => simp [strCmp] at h1
    | cons b bs =>
      cases z with
      | nil => simp [strCmp] at h2
      | cons c cs =>
        simp only [strCmp] at h1 h2 ⊢
        by_cases hab : a.toNat < b.toNat
        · by_cases hbc : b.toNat < c.toNat
          · have hac : a.toNat < c.toNat := Nat.lt_trans hab hbc
            simp [hac]
          · by_cases hcb : c.toNat < b.toNat
            · simp [hbc, hcb] at h2
            · have hbc2 : b.toNat = c.toNat :=
                Nat.le_antisymm (Nat.not_lt.mp hcb) (Nat.not_lt.mp hbc)
              have hac : a.toNat < c.toNat := by rw [← hbc2]; exact hab
              simp [hac]
        · by_cases hba : b.toNat < a.toNat
          · simp [hab, hba] at h1
          · have hab2 : a.toNat = b.toNat :=
              Nat.le_antisymm (Nat.not_lt.mp hba) (Nat.not_lt.mp hab)
            by_cases hbc : b.toNat < c.toNat
            · have hac : a.toNat < c.toNat := by rw [hab2]; exact hbc
              simp [hac]
            · by_cases hcb : c.toNat < b.toNat
              · simp [hbc, hcb] at h2
              · have hbc2 : b.toNat = c.toNat :=
                  Nat.le_antisymm (Nat.not_lt.mp hcb) (Nat.not_lt.mp hbc)
                have hac1 : ¬ a.toNat < c.toNat := by
                  rw [hab2, hbc2]; exact lt_irrefl _
                have hca : ¬ c.toNat < a.toNat := by
                  rw [hab2, hbc2]; exact lt_irrefl _
                simp only [hab, hba, if_false] at h1
                simp only [hbc, hcb, if_false] at h2
                simp only [hac1, hca, if_false]
                exact ih bs cs h1 h2

instance : IsTotal String pyStrLe := by
  constructor
  intro a b
  by_cases h : strCmp a.data b.data = .gt
  · right
    unfold pyStrLe
    rw [strCmp_swap, h]
    simp [Ordering.swap]
  · exact Or.inl h

instance : IsTrans String pyStrLe :=
  ⟨fun a b c h1 h2 => strCmp_le_trans a.data b.data c.data h1 h2⟩

/-! ### Dictionary lemmas -/

theorem dictGet?_dictAppendVal {α : Type} (d : List (String × List α)) (k key : String)
    (x : α) :
    dictGet? (dictAppendVal d k x) key =
      if key = k then (dictGet? d key).map (fun l => l ++ [x]) else dictGet? d key := by
  induction d with
  | nil => by_cases h : key = k <;> simp [dictAppendVal, dictGet?, h]
  | cons p rest ih =>
    obtain ⟨k2, v⟩ := p
    by_cases h1 : k2 = k
    · subst h1
      by_cases h2 : k2 = key
      · subst h2
        simp [dictAppendVal, dictGet?]
      · have h3 : ¬ key = k2 := fun hh => h2 hh.symm
        simp [dictAppendVal, dictGet?, h2, h3, ih]
    · by_cases h2 : k2 = key
      · subst h2
        simp [dictAppendVal, dictGet?, h1]
      · simp [dictAppendVal, dictGet?, h1, h2, ih]

theorem dictGet?_vteStep (d : List (String × List String)) (e : Event) (v : String) :
    dictGet? (vteStep d e) v =
      (dictGet? d v).map (fun l => l ++ (if e.venue = v then [e.artist] else [])) := by
  unfold vteStep
  by_cases hpres : (dictGet? d e.venue).isSome
  · rw [if_pos hpres, dictGet?_dictAppendVal]
    by_cases hv : v = e.venue
    · subst hv
      simp
    · have hv2 : ¬ (e.venue = v) := fun hh => hv hh.symm
      simp [hv, hv2]
  · rw [if_neg hpres]
    by_cases hv : e.venue = v
    · subst hv
      have hnone : dictGet? d e.venue = none := Option.not_isSome_iff_eq_none.mp hpres
      simp [hnone]
    · simp [hv]

theorem artistsAt_cons (e : Event) (rest : List Event) (v : String) :
    artistsAt (e :: rest) v =
      (if e.venue = v then [e.artist] else []) ++ artistsAt rest v := by
  by_cases hv : e.venue = v <;> simp [artistsAt, List.filter_cons, hv]

theorem dictGet?_foldl_vteStep (events : List Event) (d : List (String × List String))
    (v : String) :
    dictGet? (events.foldl vteStep d) v =
      (dictGet? d v).map (fun l => l ++ artistsAt events v) := by
  induction events generalizing d with
  | nil =>
    simp only [List.foldl_nil]
    cases dictGet? d v <;> simp [artistsAt]
  | cons e rest ih =>
    rw [List.foldl_cons, ih, dictGet?_vteStep, artistsAt_cons]
    cases dictGet? d v with
    | none => simp
    | some l => simp

theorem dictGet?_initColumns (allV : List String) (v : String) (h : v ∈ allV) :
    dictGet? (allV.map (fun u => (u, ([] : List String)))) v = some [] := by
  induction allV with
  | nil => cases h
  | cons a rest ih =>
    simp only [List.map_cons, dictGet?]
    by_cases ha : a = v
    · simp [ha]
    · have hmem : v ∈ rest := by
        cases h with
        | head => exact absurd rfl ha
        | tail _ hm => exact hm
      simp [ha, ih hmem]

theorem dictGet?_venue_to_events (allV : List String) (events : List Event) (v : String)
    (h : v ∈ allV) :
    dictGet? (venue_to_events allV events) v = some (artistsAt events v) := by
  unfold venue_to_events
  rw [dictGet?_foldl_vteStep, dictGet?_initColumns allV v h]
  simp

theorem dictGet?_perm {α : Type} {l1 l2 : List (String × α)} (hp : List.Perm l1 l2)
    (hnd : (l1.map Prod.fst).Nodup) (k : String) :
    dictGet? l1 k = dictGet? l2 k := by
  induction hp with
  | nil => rfl
  | @cons x t1 t2 _ ih =>
    obtain ⟨kx, vx⟩ := x
    have hnd2 : (t1.map Prod.fst).Nodup := by
      simp only [List.map_cons, List.nodup_cons] at hnd
      exact hnd.2
    simp only [dictGet?]
    by_cases hx : kx = k
    · simp [hx]
    · simp [hx, ih hnd2]
  | @swap x y t =>
    obtain ⟨kx, vx⟩ := x
    obtain ⟨ky, vy⟩ := y
    have hne : ky ≠ kx := by
      simp only [List.map_cons, List.nodup_cons, List.mem_cons] at hnd
      exact fun hh => hnd.1 (Or.inl hh)
    simp only [dictGet?]
    by_cases h1 : ky = k
    · subst h1
      have hkx : ¬ (kx = ky) := fun hh => hne hh.symm
      simp [hkx]
    · by_cases h2 : kx = k <;> simp [h1, h2]
  | @trans t1 t2 t3 h1 _ ih1 ih2 =>
    exact (ih1 hnd).trans (ih2 (((h1.map Prod.fst).nodup_iff).mp hnd))

theorem mem_dictSet {α : Type} (d : List (String × α)) (key : String) (v : α)
    (p : String × α) (h : p ∈ dictSet d key v) : p ∈ d ∨ p = (key, v) := by
  induction d with
  | nil =>
    simp [dictSet] at h
    exact Or.inr h
  | cons q rest ih =>
    obtain ⟨kq, vq⟩ := q
    by_cases hk : kq = key
    · simp only [dictSet, if_pos hk, List.mem_cons] at h
      cases h with
      | inl h => exact Or.inr h
      | inr h => exact Or.inl (List.mem_cons_of_mem _ h)
    · simp only [dictSet, if_neg hk, List.mem_cons] at h
      cases h with
      | inl h => exact Or.inl (h ▸ List.mem_cons_self _ _)
      | inr h =>
        cases ih h with
        | inl h2 => exact Or.inl (List.mem_cons_of_mem _ h2)
        | inr h2 => exact Or.inr h2

/-! ### Truncation and hex lemmas -/

theorem pyTrunc_mono {a b : ℚ} (h : a ≤ b) : pyTrunc a ≤ pyTrunc b := by
  unfold pyTrunc
  by_cases ha : 0 ≤ a
  · have hb : 0 ≤ b := le_trans ha h
    rw [if_pos ha, if_pos hb]
    exact Int.floor_le_floor h
  · by_cases hb : 0 ≤ b
    · rw [if_neg ha, if_pos hb]
      have h1 : (0 : Int) ≤ ⌊-a⌋ := Int.floor_nonneg.mpr (by linarith [lt_of_not_ge ha])
      have h2 : (0 : Int) ≤ ⌊b⌋ := Int.floor_nonneg.mpr hb
      omega
    · rw [if_neg ha, if_neg hb]
      have h1 : ⌊-b⌋ ≤ ⌊-a⌋ := Int.floor_le_floor (by linarith)
      omega

theorem pyTrunc_eq_floor {q : ℚ} (h : 0 ≤ q) : pyTrunc q = ⌊q⌋ := if_pos h

set_option maxRecDepth 4096 in
theorem hex2_fin :
    ∀ i : Fin 256,
      (hex2 ((i : Nat) : Int)).length = 2
        ∧ ((hex2 ((i : Nat) : Int)).data.all isLowerHexDigit) = true := by
  decide

theorem hex2_spec {n : Int} (h0 : 0 ≤ n) (h255 : n ≤ 255) :
    (hex2 n).length = 2 ∧ ((hex2 n).data.all isLowerHexDigit) = true := by
  obtain ⟨m, rfl⟩ := Int.eq_ofNat_of_zero_le h0
  have hm : m < 256 := by omega
  exact hex2_fin ⟨m, hm⟩

/-! ### Claim C1 -/

/-- C1, counterexample: a depth-0 line does NOT reset the current-time-slot
pointer — after processing the day header Day2 from a state whose pointer
still holds 20:00, the pointer still holds 20:00 (not none); and on the full
input where an event line follows the new Day header with no intervening
depth-2 line, the parse returns the error outcome (the stale pointer makes
the event lookup raise, caught as a generic error) instead of leaving the
event unattached in a returned Schedule. -/
theorem C1_counterexample :
    (step ⟨[("Day1", [("20:00", [])])], some "Day1", some "20:00", []⟩ 2 "Day2").map
        PState.current_time = some (some "20:00")
    ∧ (parse_schedule_file ["Day1", "  20:00", "Day2", "    A (V)"]).1 = none := by
  constructor
  · decide
  · decide

/-- C1, amended: a nonblank line at depth 0 opens a new Day bound to an empty
time-slot mapping and makes it current, but leaves the current-time-slot
pointer unchanged rather than resetting it; consequently, on the concrete
input where an event line follows a new Day header with no intervening
depth-2 line while a stale pointer from the previous day is set, the parse
aborts with the error outcome; and when no time slot is open (pointer
undefined) a depth ≥ 4 line is skipped, leaving the state unchanged. -/
theorem C1_day_line_keeps_time_pointer :
    (∀ st : PState, ∀ i : Nat, ∀ line : String,
      pyStrip line ≠ "" → countLeadingSpaces line = 0 →
      step st i line = some { st with current_day := some (pyStrip line),
                                      schedule := dictSet st.schedule (pyStrip line) [] })
    ∧ (∀ st st2 : PState, ∀ i : Nat, ∀ line : String,
      pyStrip line ≠ "" → countLeadingSpaces line = 0 →
      step st i line = some st2 → st2.current_time = st.current_time)
    ∧ (parse_schedule_file ["Day1", "  20:00", "Day2", "    A (V)"]).1 = none
    ∧ (∀ st : PState, ∀ i : Nat, ∀ line : String,
      pyStrip line ≠ "" → 4 ≤ countLeadingSpaces line →
      st.current_time = none → step st i line = some st) := by
  have part1 : ∀ st : PState, ∀ i : Nat, ∀ line : String,
      pyStrip line ≠ "" → countLeadingSpaces line = 0 →
      step st i line = some { st with current_day := some (pyStrip line),
                                      schedule := dictSet st.schedule (pyStrip line) [] } := by
    intro st i line h0 hind
    simp only [step, hind]
    rw [if_neg h0]
    rfl
  refine ⟨part1, ?_, ?_, ?_⟩
  · intro st st2 i line h0 hind hstep
    rw [part1 st i line h0 hind] at hstep
    cases hstep
    rfl
  · decide
  · intro st i line h0 hind htime
    have hne0 : ¬ (countLeadingSpaces line = 0) := by omega
    have hne2 : ¬ (countLeadingSpaces line = 2) := by omega
    simp only [step]
    rw [if_neg h0, if_neg hne0, if_neg hne2, if_pos hind, htime]
    cases st.current_day <;> rfl

/-- C1, witness: the amended theorem applied at concrete inputs — the day
header Friday from the initial state, the stepped state keeping its (none)
pointer, and a depth-4 line skipped from a state with no open time slot. -/
theorem C1_day_line_keeps_time_pointer_witness :
    step initState 0 "Friday" =
      some { initState with current_day := some "Friday",
                            schedule := dictSet initState.schedule "Friday" [] }
    ∧ (step ⟨[("Day1", [("20:00", [])])], some "Day1", some "20:00", []⟩ 2 "Day2").map
        PState.current_time = some (some "20:00")
    ∧ step ⟨[("Day1", [])], some "Day1", none, []⟩ 1 "    A (V)" =
        some ⟨[("Day1", [])], some "Day1", none, []⟩ := by
  refine ⟨?_, ?_, ?_⟩
  · exact C1_day_line_keeps_time_pointer.1 initState 0 "Friday" (by decide) (by decide)
  · decide
  · exact C1_day_line_keeps_time_pointer.2.2.2
      ⟨[("Day1", [])], some "Day1", none, []⟩ 1 "    A (V)" (by decide) (by decide) rfl

/-! ### Claim C2 -/

/-- C2, counterexample: a depth-4 line while no TimeSlot is open is skipped
with NO warning at all (the claimed warning is not emitted): the parse of
Day1 followed by an unparsable depth-4 line succeeds with an empty warning
list, not a one-element one. -/
theorem C2_counterexample :
    parse_schedule_file ["Day1", "    BadLine"] = (some [("Day1", [])], [])
    ∧ (parse_schedule_file ["Day1", "    BadLine"]).2.length = 0 := by
  constructor
  · decide
  · decide

/-- C2, amended: a depth ≥ 4 line that does not match the `name (venue)`
pattern while a Day and a TimeSlot are both current is skipped with exactly
one warning for that line and parsing continues with the remaining lines;
but a depth ≥ 4 line processed while no Day or no TimeSlot is current is
skipped silently, with no warning; in both cases parsing is non-fatal and
the loop proceeds with the remaining lines. -/
theorem C2_event_line_warnings :
    (∀ st : PState, ∀ i : Nat, ∀ line : String, ∀ d t : String,
      pyStrip line ≠ "" → 4 ≤ countLeadingSpaces line →
      st.current_day = some d → st.current_time = some t →
      eventMatch (pyStrip line) = none →
      step st i line = some { st with warnings := st.warnings ++ [(i + 1, pyStrip line)] })
    ∧ (∀ st : PState, ∀ i : Nat, ∀ line : String,
      pyStrip line ≠ "" → 4 ≤ countLeadingSpaces line →
      (st.current_day = none ∨ st.current_time = none) →
      step st i line = some st)
    ∧ (∀ st st2 : PState, ∀ i : Nat, ∀ line : String, ∀ rest : List String,
      step st i line = some st2 →
      parseLines st i (line :: rest) = parseLines st2 (i + 1) rest) := by
  refine ⟨?_, ?_, ?_⟩
  · intro st i line d t h0 hind hday htime hmatch
    have hne0 : ¬ (countLeadingSpaces line = 0) := by omega
    have hne2 : ¬ (countLeadingSpaces line = 2) := by omega
    simp only [step]
    rw [if_neg h0, if_neg hne0, if_neg hne2, if_pos hind, hday, htime, hmatch]
  · intro st i line h0 hind hcase
    have hne0 : ¬ (countLeadingSpaces line = 0) := by omega
    have hne2 : ¬ (countLeadingSpaces line = 2) := by omega
    simp only [step]
    rw [if_neg h0, if_neg hne0, if_neg hne2, if_pos hind]
    cases hcase with
    | inl hd => rw [hd]
    | inr ht => rw [ht]; cases st.current_day <;> rfl
  · intro st st2 i line rest hstep
    simp only [parseLines, hstep]

/-- C2, witness: the amended theorem applied at concrete inputs — an
unparsable event line under an open Day and TimeSlot gets exactly one
warning; the same line with no TimeSlot open is skipped silently; and the
loop continues with the remaining lines after the warned step. -/
theorem C2_event_line_warnings_witness :
    step ⟨[("Day1", [("20:00", [])])], some "Day1", some "20:00", []⟩ 2 "    BadLine" =
      some ⟨[("Day1", [("20:00", [])])], some "Day1", some "20:00", [(3, "BadLine")]⟩
    ∧ step ⟨[("Day1", [])], some "Day1", none, []⟩ 1 "    BadLine" =
        some ⟨[("Day1", [])], some "Day1", none, []⟩
    ∧ parseLines ⟨[("Day1", [("20:00", [])])], some "Day1", some "20:00", []⟩ 2
        ["    BadLine"] =
      parseLines ⟨[("Day1", [("20:00", [])])], some "Day1", some "20:00", [(3, "BadLine")]⟩ 3
        [] := by
  refine ⟨?_, ?_, ?_⟩
  · exact C2_event_line_warnings.1
      ⟨[("Day1", [("20:00", [])])], some "Day1", some "20:00", []⟩ 2 "    BadLine"
      "Day1" "20:00" (by decide) (by decide) rfl rfl (by decide)
  · exact C2_event_line_warnings.2.1
      ⟨[("Day1", [])], some "Day1", none, []⟩ 1 "    BadLine" (by decide) (by decide)
      (Or.inr rfl)
  · exact C2_event_line_warnings.2.2
      ⟨[("Day1", [("20:00", [])])], some "Day1", some "20:00", []⟩
      ⟨[("Day1", [("20:00", [])])], some "Day1", some "20:00", [(3, "BadLine")]⟩ 2
      "    BadLine" [] (by decide)

/-! ### Claim C3 -/

/-- C3, counterexample: the span for an artist absent from the ranking store
is NOT free of a style attribute — it carries an (empty) style attribute:
the rendered span contains the substring ` style=` and equals the literal
element with `style=""`. -/
theorem C3_counterexample :
    containsSub (spanFor [] "Band").data " style=".data = true
    ∧ spanFor [] "Band" = "<li><span class=\"artist-cell\" style=\"\">Band</span></li>" := by
  constructor
  · decide
  · decide

/-- C3, amended: the artist span always carries a style attribute; its value
is the empty string when the artist is absent from the ranking store (and
likewise when the stored value is not numeric), so no background-color or
color appear then; and when the mapper returns colors (as it does exactly
for numeric ranks) the attribute holds background-color followed by color. -/
theorem C3_span_style :
    (∀ rankings : List (String × PyVal), ∀ artist : String,
      dictGet? rankings artist = none →
      spanFor rankings artist =
        "<li><span class=\"artist-cell\" style=\"\">" ++ artist ++ "</span></li>")
    ∧ (∀ rankings : List (String × PyVal), ∀ artist : String, ∀ v : PyVal,
      dictGet? rankings artist = some v → pyNumeric v = none →
      spanFor rankings artist =
        "<li><span class=\"artist-cell\" style=\"\">" ++ artist ++ "</span></li>")
    ∧ (∀ rankings : List (String × PyVal), ∀ artist : String, ∀ v : PyVal,
        ∀ bg tc : String,
      dictGet? rankings artist = some v →
      get_color_for_rank v = (some bg, some tc) →
      spanFor rankings artist =
        "<li><span class=\"artist-cell\" style=\""
          ++ ("background-color: " ++ bg ++ ";" ++ (" color: " ++ tc ++ ";"))
          ++ "\">" ++ artist ++ "</span></li>") := by
  refine ⟨?_, ?_, ?_⟩
  · intro rankings artist h
    simp only [spanFor, h, Option.getD_none]
    rfl
  · intro rankings artist v h hnum
    simp only [spanFor, h, Option.getD_some, get_color_for_rank, hnum]
    rfl
  · intro rankings artist v bg tc h hcol
    simp only [spanFor, h, Option.getD_some, hcol]
    rfl

/-- C3, witness: the amended theorem applied at concrete inputs — an absent
artist gets the empty style attribute, a non-numeric stored value also does,
and a rank-8 artist gets the background and text colors. -/
theorem C3_span_style_witness :
    spanFor [] "Band" = "<li><span class=\"artist-cell\" style=\"\">Band</span></li>"
    ∧ spanFor [("Band", .pyStr "oops")] "Band" =
        "<li><span class=\"artist-cell\" style=\"\">Band</span></li>"
    ∧ spanFor [("Band", .pyInt 8)] "Band" =
        "<li><span class=\"artist-cell\" style=\""
          ++ ("background-color: " ++ "#008d71" ++ ";" ++ (" color: " ++ "#ffffff" ++ ";"))
          ++ "\">" ++ "Band" ++ "</span></li>" := by
  have hcol : get_color_for_rank (.pyInt 8) = (some "#008d71", some "#ffffff") := by
    have h : rankChannels ((8 : Int) : ℚ) = (0, 141, 113) := by
      unfold rankChannels pyTrunc; norm_num
    simp only [get_color_for_rank, pyNumeric, h]
    norm_num
    decide
  refine ⟨?_, ?_, ?_⟩
  · exact C3_span_style.1 [] "Band" rfl
  · exact C3_span_style.2.1 [("Band", .pyStr "oops")] "Band" (.pyStr "oops") rfl rfl
  · exact C3_span_style.2.2 [("Band", .pyInt 8)] "Band" (.pyInt 8) "#008d71" "#ffffff"
      rfl hcol

/-! ### Claim C4 -/

/-- C4, counterexample: with a malformed ranking store the renderer does NOT
produce its HTML output — main aborts with no document (while the same run
with an empty store does produce one), because schedule.py main has no
handler around yaml.safe_load. -/
theorem C4_counterexample :
    mainRun ["Day1"] .malformed = none
    ∧ (mainRun ["Day1"] .emptyDoc).isSome = true := by
  constructor
  · decide
  · decide

/-- C4, amended: in the ranking tool, load_rankings treats a malformed or
unreadable store as an empty mapping with a warning and continues; but the
renderer's main loads the store without such a handler, so there a malformed
store aborts the run with no HTML output — only a missing store (or an
empty document) is tolerated, in which case the HTML is produced with no
rankings applied. -/
theorem C4_store_recovery :
    load_rankings .malformed = ([], true)
    ∧ (∀ lines : List String, mainRun lines .malformed = none)
    ∧ (∀ lines : List String, ∀ sched : Sched, ∀ w : List (Nat × String),
      parse_schedule_file lines = (some sched, w) →
      mainRun lines .missing = some (generate_html_table sched [])) := by
  refine ⟨rfl, ?_, ?_⟩
  · intro lines
    unfold mainRun
    cases h : (parse_schedule_file lines).1 <;> simp [h, mainLoadRankings]
  · intro lines sched w hparse
    unfold mainRun
    rw [hparse]
    rfl

/-- C4, witness: the amended theorem applied at a concrete input — the
malformed store aborts the run on a one-day schedule, while the missing
store still renders that schedule. -/
theorem C4_store_recovery_witness :
    mainRun ["Day1"] .malformed = none
    ∧ mainRun ["Day1"] .missing = some (generate_html_table [("Day1", [])] []) := by
  constructor
  · exact C4_store_recovery.2.1 ["Day1"]
  · exact C4_store_recovery.2.2 ["Day1"] [("Day1", [])] [] (by decide)

/-! ### Claim C6 -/

theorem filter_key_orderedInsert (k : Int) (a : String) (s : List String) :
    (List.orderedInsert timeLe a s).filter (fun t => time_sort_key t = k) =
      if time_sort_key a = k
      then a :: s.filter (fun t => time_sort_key t = k)
      else s.filter (fun t => time_sort_key t = k) := by
  induction s with
  | nil => by_cases ha : time_sort_key a = k <;> simp [List.orderedInsert, ha]
  | cons b l ih =>
    simp only [List.orderedInsert]
    by_cases hle : timeLe a b
    · rw [if_pos hle]
      by_cases ha : time_sort_key a = k <;>
        by_cases hb : time_sort_key b = k <;>
          simp [List.filter_cons, ha, hb]
    · rw [if_neg hle]
      by_cases ha : time_sort_key a = k
      · have hb : ¬ (time_sort_key b = k) := by
          intro hb
          exact hle (show timeLe a b from by unfold timeLe; rw [ha, hb])
        simp [List.filter_cons, ha, hb, ih]
      · by_cases hb : time_sort_key b = k <;> simp [List.filter_cons, ha, hb, ih]

/-- Stability of the sort behind sorted_times: for every hour key, the
labels of that key appear in the sorted output exactly as they appear in
the input, in the same order. -/
theorem filter_key_insertionSort (k : Int) (l : List String) :
    (List.insertionSort timeLe l).filter (fun t => time_sort_key t = k) =
      l.filter (fun t => time_sort_key t = k) := by
  induction l with
  | nil => rfl
  | cons a l ih =>
    simp only [List.insertionSort]
    rw [filter_key_orderedInsert]
    by_cases ha : time_sort_key a = k <;> simp [List.filter_cons, ha, ih]

/-- C6, counterexample: labels with equal sort key do NOT break ties by
label string ordering — the slots 20:30 and 20:00 share hour key 20, yet
render in encounter order 20:30, 20:00, not in label order 20:00, 20:30. -/
theorem C6_counterexample :
    sorted_times [("20:30", []), ("20:00", [])] = ["20:30", "20:00"]
    ∧ sorted_times [("20:30", []), ("20:00", [])] ≠ ["20:00", "20:30"] := by
  constructor
  · decide
  · decide

/-- C6, amended: the renderer orders a day's rows by the leading hour of the
label with hours below 5 shifted by 24 (the row list is sorted under that
key and is a permutation of the day's labels), and labels with equal sort
key keep their encounter order — for every day and every key value, the
equal-key labels of the sorted row list are exactly the equal-key labels of
the day's label list, in the same order (Python's sort is stable) — not
label-string order; in particular 23:00, 00:30, 20:00 render as 20:00,
23:00, 00:30, and the equal-key slots 20:30, 20:00 stay in encounter
order. -/
theorem C6_time_ordering :
    (∀ de : TimeDict, List.Sorted timeLe (sorted_times de))
    ∧ (∀ de : TimeDict, List.Perm (sorted_times de) (de.map Prod.fst))
    ∧ (∀ de : TimeDict, ∀ k : Int,
        (sorted_times de).filter (fun t => time_sort_key t = k) =
          (de.map Prod.fst).filter (fun t => time_sort_key t = k))
    ∧ time_sort_key "20:00" = 20
    ∧ time_sort_key "23:00" = 23
    ∧ time_sort_key "00:30" = 24
    ∧ sorted_times [("23:00", []), ("00:30", []), ("20:00", [])] =
        ["20:00", "23:00", "00:30"]
    ∧ sorted_times [("20:30", []), ("20:00", [])] = ["20:30", "20:00"] := by
  refine ⟨?_, ?_, ?_, by decide, by decide, by decide, by decide, by decide⟩
  · intro de
    exact List.sorted_insertionSort timeLe (de.map Prod.fst)
  · intro de
    exact List.perm_insertionSort timeLe (de.map Prod.fst)
  · intro de k
    exact filter_key_insertionSort k (de.map Prod.fst)

/-! ### Claim C7 -/

/-- C7: the renderer computes one global venue column list — the distinct
venues of the whole schedule, lexicographically sorted — and shares it
across every day's table (the generated document is built from the one
all_venues list for all days); each row has exactly one cell per venue, and
a venue with no events in a time slot renders as the empty cell, never an
omitted one. -/
theorem C7_global_columns :
    (∀ s : Sched, List.Sorted pyStrLe (all_venues s))
    ∧ (∀ s : Sched, ∀ v : String, v ∈ all_venues s ↔ v ∈ venuesOf s)
    ∧ (∀ s : Sched, ∀ rankings : List (String × PyVal), ∀ events : List Event,
      (rowCells rankings (all_venues s) events).length = (all_venues s).length)
    ∧ (∀ s : Sched, ∀ rankings : List (String × PyVal), ∀ events : List Event,
        ∀ v : String,
      v ∈ all_venues s → artistsAt events v = [] →
      cellFor rankings (venue_to_events (all_venues s) events) v = "<td></td>")
    ∧ (∀ s : Sched, ∀ rankings : List (String × PyVal),
      generate_html_table s rankings =
        htmlHeader
          ++ String.join (s.map (fun d => dayHtml rankings (all_venues s) d.1 d.2))
          ++ "</body></html>") := by
  refine ⟨?_, ?_, ?_, ?_, ?_⟩
  · intro s
    exact List.sorted_insertionSort pyStrLe (venuesOf s).dedup
  · intro s v
    unfold all_venues
    rw [List.mem_insertionSort, List.mem_dedup]
  · intro s rankings events
    unfold rowCells
    rw [List.length_map]
  · intro s rankings events v hv hempty
    unfold cellFor
    rw [dictGet?_venue_to_events (all_venues s) events v hv, hempty]
    rfl
  · intro s rankings
    rfl

/-- C7, witness: the theorem applied at a concrete two-day schedule — the
membership of a venue in the global columns, the constant per-row cell
count, and the empty cell for a venue with no events in a slot (Club appears
only on the second day, yet is a column — an empty cell — in the first
day's row). -/
theorem C7_global_columns_witness :
    ("Club" ∈ all_venues
        [("Fri", [("20:00", [⟨"A", "Hall"⟩])]), ("Sat", [("21:00", [⟨"B", "Club"⟩])])]
      ↔ "Club" ∈ venuesOf
        [("Fri", [("20:00", [⟨"A", "Hall"⟩])]), ("Sat", [("21:00", [⟨"B", "Club"⟩])])])
    ∧ (rowCells []
        (all_venues
          [("Fri", [("20:00", [⟨"A", "Hall"⟩])]), ("Sat", [("21:00", [⟨"B", "Club"⟩])])])
        [⟨"A", "Hall"⟩]).length =
      (all_venues
        [("Fri", [("20:00", [⟨"A", "Hall"⟩])]), ("Sat", [("21:00", [⟨"B", "Club"⟩])])]).length
    ∧ cellFor []
        (venue_to_events
          (all_venues
            [("Fri", [("20:00", [⟨"A", "Hall"⟩])]), ("Sat", [("21:00", [⟨"B", "Club"⟩])])])
          [⟨"A", "Hall"⟩])
        "Club" = "<td></td>" := by
  refine ⟨?_, ?_, ?_⟩
  · exact C7_global_columns.2.1
      [("Fri", [("20:00", [⟨"A", "Hall"⟩])]), ("Sat", [("21:00", [⟨"B", "Club"⟩])])] "Club"
  · exact C7_global_columns.2.2.1
      [("Fri", [("20:00", [⟨"A", "Hall"⟩])]), ("Sat", [("21:00", [⟨"B", "Club"⟩])])] []
      [⟨"A", "Hall"⟩]
  · exact C7_global_columns.2.2.2.1
      [("Fri", [("20:00", [⟨"A", "Hall"⟩])]), ("Sat", [("21:00", [⟨"B", "Club"⟩])])] []
      [⟨"A", "Hall"⟩] "Club" (by decide) (by decide)

/-! ### Claim C8 -/

/-- C8: saving the ranking store and loading it back yields the same mapping
(lookup for every key is unchanged — saving only reorders the entries by
key), and no document the session ever saves contains a skip entry, because
a skipped artist is never written into the dict that gets saved. -/
theorem C8_roundtrip_no_skips :
    (∀ m : List (String × PyVal), (m.map Prod.fst).Nodup →
      ∀ k : String,
        dictGet? (load_rankings (.mapping (save_rankings m))).1 k = dictGet? m k)
    ∧ (∀ init : List (String × PyVal), ∀ items : List (String × Outcome),
      (∀ p ∈ init, isSkipMarker p.2 = false) →
      ∀ doc ∈ (sessionRun init items).2, ∀ p ∈ doc, isSkipMarker p.2 = false) := by
  constructor
  · intro m hnd k
    show dictGet? (save_rankings m) k = dictGet? m k
    unfold save_rankings
    have hp := List.perm_insertionSort (fun a b => pyStrLe a.1 b.1) m
    exact dictGet?_perm hp (((hp.map Prod.fst).nodup_iff).mpr hnd) k
  · intro init items
    induction items generalizing init with
    | nil =>
      intro _ doc hdoc
      simp [sessionRun] at hdoc
    | cons item rest ih =>
      obtain ⟨name, out⟩ := item
      cases out with
      | skipped =>
        intro hinit doc hdoc
        exact ih init hinit doc hdoc
      | ranked n =>
        intro hinit doc hdoc
        have hinit2 : ∀ p ∈ dictSet init name (.pyInt n), isSkipMarker p.2 = false := by
          intro p hp
          cases mem_dictSet init name (.pyInt n) p hp with
          | inl h => exact hinit p h
          | inr h => rw [h]; rfl
        rcases hsr : sessionRun (dictSet init name (.pyInt n)) rest with ⟨f, s⟩
        have heq : sessionRun init ((name, Outcome.ranked n) :: rest) =
            (f, save_rankings (dictSet init name (.pyInt n)) :: s) := by
          simp only [sessionRun, hsr]
        rw [heq] at hdoc
        simp only [List.mem_cons] at hdoc
        cases hdoc with
        | inl h =>
          subst h
          intro p hp
          unfold save_rankings at hp
          exact hinit2 p ((List.perm_insertionSort (fun a b => pyStrLe a.1 b.1) _).subset hp)
        | inr h =>
          have hs2 : doc ∈ (sessionRun (dictSet init name (.pyInt n)) rest).2 := by
            rw [hsr]
            exact h
          exact ih (dictSet init name (.pyInt n)) hinit2 doc hs2

/-- C8, witness: the theorem applied at concrete inputs — lookups of both
artists survive a save/load round trip of a two-entry store, and a session
that skips one artist and ranks another never saves a skip entry (checked on
the first saved document). -/
theorem C8_roundtrip_no_skips_witness :
    ([("B", PyVal.pyInt 2), ("A", PyVal.pyInt 8)].map Prod.fst).Nodup
    ∧ dictGet? (load_rankings
        (.mapping (save_rankings [("B", PyVal.pyInt 2), ("A", PyVal.pyInt 8)]))).1 "A" =
      dictGet? [("B", PyVal.pyInt 2), ("A", PyVal.pyInt 8)] "A"
    ∧ dictGet? (load_rankings
        (.mapping (save_rankings [("B", PyVal.pyInt 2), ("A", PyVal.pyInt 8)]))).1 "B" =
      dictGet? [("B", PyVal.pyInt 2), ("A", PyVal.pyInt 8)] "B"
    ∧ isSkipMarker ("D", PyVal.pyInt 5).2 = false := by
  refine ⟨by decide, ?_, ?_, ?_⟩
  · exact C8_roundtrip_no_skips.1 [("B", PyVal.pyInt 2), ("A", PyVal.pyInt 8)] (by decide) "A"
  · exact C8_roundtrip_no_skips.1 [("B", PyVal.pyInt 2), ("A", PyVal.pyInt 8)] (by decide) "B"
  · exact C8_roundtrip_no_skips.2 [("A", PyVal.pyInt 3)]
      [("C", Outcome.skipped), ("D", Outcome.ranked 5)] (by decide)
      [("A", PyVal.pyInt 3), ("D", PyVal.pyInt 5)] (by decide)
      ("D", PyVal.pyInt 5) (by decide)

/-! ### Claim C5 -/

theorem pyTrunc_bounds {e : ℚ} (h0 : 0 ≤ e) (h255 : e ≤ 255) :
    0 ≤ pyTrunc e ∧ pyTrunc e ≤ 255 := by
  rw [pyTrunc_eq_floor h0]
  refine ⟨Int.floor_nonneg.mpr h0, ?_⟩
  have h2 : (⌊(255 : ℚ)⌋ : Int) = 255 := by norm_num
  calc ⌊e⌋ ≤ ⌊(255 : ℚ)⌋ := Int.floor_le_floor h255
  _ = 255 := h2

/-- C5: for every numeric rank in [1,10] the mapper computes the claimed
piecewise-linear interpolation — red to blue below 5.5, blue to green above
— with each channel truncated to an integer in [0,255]; the background is
the hash sign followed by three two-digit lowercase hex channel values, the
text color is white exactly when the luminance (0.299R+0.587G+0.114B)/255
is below 0.5 and black otherwise; and the three anchors map to pure red,
pure blue and pure green. -/
theorem C5_color_interpolation (r : ℚ) (hlo : 1 ≤ r) (hhi : r ≤ 10) :
    (∃ R G B : Int,
      rankChannels r = (R, G, B)
      ∧ (r ≤ 5.5 →
          R = pyTrunc (255 * (1 - (r - 1) / 4.5))
            ∧ B = pyTrunc (255 * ((r - 1) / 4.5)) ∧ G = 0)
      ∧ (5.5 < r →
          B = pyTrunc (255 * (1 - (r - 5.5) / 4.5))
            ∧ G = pyTrunc (255 * ((r - 5.5) / 4.5)) ∧ R = 0)
      ∧ ((0 ≤ R ∧ R ≤ 255) ∧ (0 ≤ G ∧ G ≤ 255) ∧ (0 ≤ B ∧ B ≤ 255))
      ∧ get_color_for_rank (.pyFloat r) =
          (some ("#" ++ hex2 R ++ hex2 G ++ hex2 B),
           some (if ((0.299 : ℚ) * R + (0.587 : ℚ) * G + (0.114 : ℚ) * B) / 255 < (0.5 : ℚ)
                 then "#ffffff" else "#000000"))
      ∧ ("#" ++ hex2 R ++ hex2 G ++ hex2 B).length = 7
      ∧ ((hex2 R ++ hex2 G ++ hex2 B).data.all isLowerHexDigit) = true)
    ∧ get_color_for_rank (.pyInt 1) = (some "#ff0000", some "#ffffff")
    ∧ get_color_for_rank (.pyFloat (5.5 : ℚ)) = (some "#0000ff", some "#ffffff")
    ∧ get_color_for_rank (.pyInt 10) = (some "#00ff00", some "#000000") := by
  refine ⟨?_, ?_, ?_, ?_⟩
  · by_cases hseg : r ≤ (5.5 : ℚ)
    · have hp0 : (0 : ℚ) ≤ (r - 1) / 4.5 := div_nonneg (by linarith) (by norm_num)
      have hp1 : (r - 1) / (4.5 : ℚ) ≤ 1 := (div_le_one (by norm_num)).mpr (by linarith)
      have hRGB : rankChannels r =
          (pyTrunc (255 * (1 - (r - 1) / 4.5)), 0, pyTrunc (255 * ((r - 1) / 4.5))) := by
        unfold rankChannels
        rw [if_pos hseg]
      have hRb := pyTrunc_bounds (e := 255 * (1 - (r - 1) / 4.5)) (by linarith) (by linarith)
      have hBb := pyTrunc_bounds (e := 255 * ((r - 1) / 4.5)) (by linarith) (by linarith)
      refine ⟨pyTrunc (255 * (1 - (r - 1) / 4.5)), 0, pyTrunc (255 * ((r - 1) / 4.5)),
        hRGB, fun _ => ⟨rfl, rfl, rfl⟩, fun hgt => absurd hgt (not_lt.mpr hseg),
        ⟨hRb, ⟨le_refl 0, by norm_num⟩, hBb⟩, ?_, ?_, ?_⟩
      · simp only [get_color_for_rank, pyNumeric, hRGB]
      · have h1 := (hex2_spec hRb.1 hRb.2).1
        have h2 := (hex2_spec (le_refl (0 : Int)) (by norm_num)).1
        have h3 := (hex2_spec hBb.1 hBb.2).1
        simp only [String.length_append, h1, h2, h3]
        rfl
      · have h1 := (hex2_spec hRb.1 hRb.2).2
        have h2 := (hex2_spec (le_refl (0 : Int)) (by norm_num)).2
        have h3 := (hex2_spec hBb.1 hBb.2).2
        simp only [String.data_append, List.all_append, h1, h2, h3]
        rfl
    · have hgt : (5.5 : ℚ) < r := not_le.mp hseg
      have hp0 : (0 : ℚ) ≤ (r - 5.5) / 4.5 := div_nonneg (by linarith) (by norm_num)
      have hp1 : (r - 5.5) / (4.5 : ℚ) ≤ 1 := (div_le_one (by norm_num)).mpr (by linarith)
      have hRGB : rankChannels r =
          (0, pyTrunc (255 * ((r - 5.5) / 4.5)), pyTrunc (255 * (1 - (r - 5.5) / 4.5))) := by
        unfold rankChannels
        rw [if_neg hseg]
      have hGb := pyTrunc_bounds (e := 255 * ((r - 5.5) / 4.5)) (by linarith) (by linarith)
      have hBb := pyTrunc_bounds (e := 255 * (1 - (r - 5.5) / 4.5)) (by linarith) (by linarith)
      refine ⟨0, pyTrunc (255 * ((r - 5.5) / 4.5)), pyTrunc (255 * (1 - (r - 5.5) / 4.5)),
        hRGB, fun hle => absurd hgt (not_lt.mpr hle), fun _ => ⟨rfl, rfl, rfl⟩,
        ⟨⟨le_refl 0, by norm_num⟩, hGb, hBb⟩, ?_, ?_, ?_⟩
      · simp only [get_color_for_rank, pyNumeric, hRGB]
      · have h1 := (hex2_spec (le_refl (0 : Int)) (by norm_num)).1
        have h2 := (hex2_spec hGb.1 hGb.2).1
        have h3 := (hex2_spec hBb.1 hBb.2).1
        simp only [String.length_append, h1, h2, h3]
        rfl
      · have h1 := (hex2_spec (le_refl (0 : Int)) (by norm_num)).2
        have h2 := (hex2_spec hGb.1 hGb.2).2
        have h3 := (hex2_spec hBb.1 hBb.2).2
        simp only [String.data_append, List.all_append, h1, h2, h3]
        rfl
  · have h : rankChannels ((1 : Int) : ℚ) = (255, 0, 0) := by
      unfold rankChannels pyTrunc
      norm_num
    simp only [get_color_for_rank, pyNumeric, h]
    norm_num
    decide
  · have h : rankChannels (5.5 : ℚ) = (0, 0, 255) := by
      unfold rankChannels pyTrunc
      norm_num
    simp only [get_color_for_rank, pyNumeric, h]
    norm_num
    decide
  · have h : rankChannels ((10 : Int) : ℚ) = (0, 255, 0) := by
      unfold rankChannels pyTrunc
      norm_num
    simp only [get_color_for_rank, pyNumeric, h]
    norm_num
    decide

/-- C5, witness: the theorem applied at rank 8, a rank above the blue
anchor. -/
theorem C5_color_interpolation_witness :
    (1 : ℚ) ≤ 8 ∧ (8 : ℚ) ≤ 10
    ∧ ((∃ R G B : Int,
      rankChannels (8 : ℚ) = (R, G, B)
      ∧ ((8 : ℚ) ≤ 5.5 →
          R = pyTrunc (255 * (1 - ((8 : ℚ) - 1) / 4.5))
            ∧ B = pyTrunc (255 * (((8 : ℚ) - 1) / 4.5)) ∧ G = 0)
      ∧ ((5.5 : ℚ) < 8 →
          B = pyTrunc (255 * (1 - ((8 : ℚ) - 5.5) / 4.5))
            ∧ G = pyTrunc (255 * (((8 : ℚ) - 5.5) / 4.5)) ∧ R = 0)
      ∧ ((0 ≤ R ∧ R ≤ 255) ∧ (0 ≤ G ∧ G ≤ 255) ∧ (0 ≤ B ∧ B ≤ 255))
      ∧ get_color_for_rank (.pyFloat (8 : ℚ)) =
          (some ("#" ++ hex2 R ++ hex2 G ++ hex2 B),
           some (if ((0.299 : ℚ) * R + (0.587 : ℚ) * G + (0.114 : ℚ) * B) / 255 < (0.5 : ℚ)
                 then "#ffffff" else "#000000"))
      ∧ ("#" ++ hex2 R ++ hex2 G ++ hex2 B).length = 7
      ∧ ((hex2 R ++ hex2 G ++ hex2 B).data.all isLowerHexDigit) = true)
    ∧ get_color_for_rank (.pyInt 1) = (some "#ff0000", some "#ffffff")
    ∧ get_color_for_rank (.pyFloat (5.5 : ℚ)) = (some "#0000ff", some "#ffffff")
    ∧ get_color_for_rank (.pyInt 10) = (some "#00ff00", some "#000000")) :=
  ⟨by norm_num, by norm_num, C5_color_interpolation 8 (by norm_num) (by norm_num)⟩

/-! ### Claim C9 -/

/-- C9: within each interpolation segment the integer channels of the
rank-to-color mapper are monotonic in the rank — on the red-to-blue segment
(ranks at most 5.5) red is non-increasing and blue non-decreasing, and on
the blue-to-green segment (ranks above 5.5) blue is non-increasing and
green non-decreasing. -/
theorem C9_segment_monotonicity (r1 r2 : ℚ) (h : r1 ≤ r2) :
    (r2 ≤ 5.5 →
      (rankChannels r2).1 ≤ (rankChannels r1).1
        ∧ (rankChannels r1).2.2 ≤ (rankChannels r2).2.2)
    ∧ (5.5 < r1 →
      (rankChannels r2).2.2 ≤ (rankChannels r1).2.2
        ∧ (rankChannels r1).2.1 ≤ (rankChannels r2).2.1) := by
  constructor
  · intro h2
    have h1 : r1 ≤ (5.5 : ℚ) := le_trans h h2
    have hdiv : (r1 - 1) / (4.5 : ℚ) ≤ (r2 - 1) / (4.5 : ℚ) :=
      (div_le_div_iff_of_pos_right (by norm_num)).mpr (by linarith)
    unfold rankChannels
    rw [if_pos h1, if_pos h2]
    dsimp only
    exact ⟨pyTrunc_mono (by linarith), pyTrunc_mono (by linarith)⟩
  · intro h1
    have h2 : (5.5 : ℚ) < r2 := lt_of_lt_of_le h1 h
    have hdiv : (r1 - 5.5) / (4.5 : ℚ) ≤ (r2 - 5.5) / (4.5 : ℚ) :=
      (div_le_div_iff_of_pos_right (by norm_num)).mpr (by linarith)
    unfold rankChannels
    rw [if_neg (not_le.mpr h1), if_neg (not_le.mpr h2)]
    dsimp only
    exact ⟨pyTrunc_mono (by linarith), pyTrunc_mono (by linarith)⟩

/-- C9, witness: the theorem applied at concrete ranks — 2 ≤ 4 in the first
segment and 7 ≤ 9 in the second. -/
theorem C9_segment_monotonicity_witness :
    ((2 : ℚ) ≤ 4 ∧ (4 : ℚ) ≤ 5.5
      ∧ ((rankChannels 4).1 ≤ (rankChannels 2).1
          ∧ (rankChannels 2).2.2 ≤ (rankChannels 4).2.2))
    ∧ ((7 : ℚ) ≤ 9 ∧ (5.5 : ℚ) < 7
      ∧ ((rankChannels 9).2.2 ≤ (rankChannels 7).2.2
          ∧ (rankChannels 7).2.1 ≤ (rankChannels 9).2.1)) := by
  constructor
  · exact ⟨by norm_num, by norm_num,
      (C9_segment_monotonicity 2 4 (by norm_num)).1 (by norm_num)⟩
  · exact ⟨by norm_num, by norm_num,
      (C9_segment_monotonicity 7 9 (by norm_num)).2 (by norm_num)⟩

/-! ### Claim C10 -/

/-- C10: the rank-to-color mapper is total — on None or any non-numeric
input (everything but a bool, int or float) it returns the pair
(None, None) rather than raising, so the renderer never guards the call. -/
theorem C10_total_on_non_numbers (v : PyVal) (h : pyNumeric v = none) :
    get_color_for_rank v = (none, none) := by
  unfold get_color_for_rank
  rw [h]

/-- C10, witness: the theorem applied at None and at a string value. -/
theorem C10_total_on_non_numbers_witness :
    pyNumeric .pyNone = none ∧ get_color_for_rank .pyNone = (none, none)
    ∧ pyNumeric (.pyStr "n/a") = none
    ∧ get_color_for_rank (.pyStr "n/a") = (none, none) :=
  ⟨rfl, C10_total_on_non_numbers .pyNone rfl, rfl,
    C10_total_on_non_numbers (.pyStr "n/a") rfl⟩

end Airwaves
